import Mathlib

/-!
Verification of the timeline node state machine in
`src/performances/nodes.py` (linas/performances).

The Python classes are shallowly embedded: the mutable attributes of a
`Node` instance become a `NodeState` record, the `run` method becomes a
pure transition function that also reports which lifecycle hooks it
invoked, and the event-gated variants (`pause`, `chat`, `chat_pause`)
become transition functions on small record states that emit lists of
observable actions (publishes, runner resume, timer cancel, listener
unregister).  Times and durations are rationals.
-/

namespace Performances

/-- The mutable lifecycle attributes shared by every node
(`Node.__init__`, nodes.py lines 60-70): `start_time`, `duration`
(already floored by the constructor), `started`, `finished`. -/
structure NodeState where
  start_time : ℚ
  duration : ℚ
  started : Bool
  finished : Bool
deriving DecidableEq, Repr

/-- `Node.__init__` (nodes.py 60-70): duration is floored at 0.1,
`started` and `finished` begin false. -/
def NodeState.init (st d : ℚ) : NodeState :=
  { start_time := st, duration := max (1/10) d, started := false, finished := false }

/-- `Node.end_time` (nodes.py 73-74): `start_time + duration`. -/
def NodeState.end_time (s : NodeState) : ℚ :=
  s.start_time + s.duration

/-- The four lifecycle hooks a `run` call may invoke. -/
inductive Hook where
  | start | stop | cont | paused
deriving DecidableEq, Repr

/-- `Node.run` (nodes.py 79-102).  Given the runner's `paused` flag and
the timeline position `run_time`, returns the boolean the method
returns, the updated node state, and the hooks invoked (in order).
The finished branch returns `False if not self.started else
run_time < self.end_time()`. -/
def Node.run (s : NodeState) (runnerPaused : Bool) (run_time : ℚ) :
    Bool × NodeState × List Hook :=
  if s.finished then
    (if !s.started then false else decide (run_time < s.end_time), s, [])
  else if s.started then
    if s.end_time ≤ run_time then
      (false, { s with finished := true }, [Hook.stop])
    else if runnerPaused then
      (true, s, [Hook.paused])
    else
      (true, s, [Hook.cont])
  else
    if s.start_time < run_time then
      (true, { s with started := true }, [Hook.start])
    else
      (true, s, [])

/-- A whole sequence of `run` calls, each with its own runner-paused
flag and time; accumulates the hooks invoked. -/
def Node.runSeq (s : NodeState) : List (Bool × ℚ) → NodeState × List Hook
  | [] => (s, [])
  | (p, t) :: rest =>
      let r := Node.run s p t
      let rec' := Node.runSeq r.2.1 rest
      (rec'.1, r.2.2 ++ rec'.2)

/-- Rank of the lifecycle state: Pending = 0, Active = 1, Finished = 2.
(A back-filled node with `finished` set is Finished regardless of
`started`.) -/
def NodeState.rank (s : NodeState) : ℕ :=
  if s.finished then 2 else if s.started then 1 else 0

/-- How many times a hook list invokes `start`. -/
def countStart (hs : List Hook) : ℕ :=
  hs.countP (fun h => h = Hook.start)

/-- `Node.createNode` back-fill (nodes.py 37-51) applied to the freshly
constructed state: if the initial timeline position is strictly past the
node's `start_time`, mark it finished; if the position is additionally
before `end_time()`, mark it started as well. -/
def Node.createNode (st d p : ℚ) : NodeState :=
  let node := NodeState.init st d
  if node.start_time < p then
    if p < node.end_time then
      { node with finished := true, started := true }
    else
      { node with finished := true }
  else node

/-!
## Exception behavior of `Node.run`

In the Python source only the `self.start(run_time)` call is wrapped in
`try/except` (nodes.py 96-99); `self.stop`, `self.cont` and
`self.paused` are called bare, so an exception raised there propagates
out of `run` and any assignment after the raising call never executes.
We model this with a `raises : Hook → Bool` oracle saying which hooks
raise; `Except.error` carries the node state left behind when `run`
propagates. -/

/-- `Node.run` with hooks that may raise.  `Except.error s` means the
exception escaped `run`, leaving the node in state `s`. -/
def Node.runE (s : NodeState) (runnerPaused : Bool) (run_time : ℚ)
    (raises : Hook → Bool) : Except NodeState (Bool × NodeState) :=
  if s.finished then
    Except.ok (if !s.started then false else decide (run_time < s.end_time), s)
  else if s.started then
    if s.end_time ≤ run_time then
      -- `self.stop(run_time)` is not wrapped: a raise skips
      -- `self.finished = True` and escapes.
      if raises Hook.stop then Except.error s
      else Except.ok (false, { s with finished := true })
    else if runnerPaused then
      if raises Hook.paused then Except.error s
      else Except.ok (true, s)
    else
      if raises Hook.cont then Except.error s
      else Except.ok (true, s)
  else
    if s.start_time < run_time then
      -- `self.start(run_time)` is wrapped in try/except: whether or not
      -- it raises, `self.started = True` runs and `run` returns True.
      Except.ok (true, { s with started := true })
    else
      Except.ok (true, s)

/-!
## The chat node (nodes.py 449-573) and chat_pause (417-446)

We model the per-instance mutable state touched by the callbacks and
the observable actions they emit.  `tmWhole` is
`timeout_mode == 'whole'`; `wholeTimedOut` stands for the wall-clock
test `time.time() - self.started_at >= self.timeout` at the moment
`add_turn` runs. -/

/-- Observable actions of the chat / chat_pause / pause callbacks. -/
inductive Action where
  | publishChat      -- runner.topics['events'].publish(Event('chat', 0))
  | publishChatEnd   -- runner.topics['events'].publish(Event('chat_end', 0))
  | publishTTS       -- runner.topics['tts'].publish(...)
  | runnerResume     -- runner.resume()
  | runnerPause      -- runner.pause()
  | unregister       -- subscriber.unregister() / runner.unregister(...)
  | timerCancel      -- timer.cancel()
  | runnerInterrupt  -- runner.interrupt()
  | appendQueue      -- runner.append_to_queue(...)
  | runFull          -- runner.run_full_performance(...)
deriving DecidableEq, Repr

/-- Mutable state of a `chat` node instance used by its callbacks. -/
structure ChatState where
  node : NodeState
  turns : ℕ
  dialog_turns : ℕ
  talking : Bool
  subscribed : Bool   -- self.subscriber is truthy
  tmWhole : Bool      -- self.timeout_mode == 'whole'
deriving DecidableEq, Repr

/-- `chat.resume` (nodes.py 555-562): zero the duration, resume the
runner, publish `chat_end`, and unregister the input subscriber if
present. -/
def chat.resume (s : ChatState) : ChatState × List Action :=
  let s := { s with node := { s.node with duration := 0 } }
  if s.subscribed then
    ({ s with subscribed := false },
     [Action.runnerResume, Action.publishChatEnd, Action.unregister])
  else
    (s, [Action.runnerResume, Action.publishChatEnd])

/-- `chat.add_turn` (nodes.py 545-553).  `wholeTimedOut` is the value of
`time.time() - self.started_at >= self.timeout` at call time. -/
def chat.add_turn (s : ChatState) (wholeTimedOut : Bool) :
    ChatState × List Action :=
  let s := { s with turns := s.turns + 1 }
  if s.turns < s.dialog_turns ∧ ¬(s.tmWhole ∧ wholeTimedOut) then
    (s, [Action.publishChat])
  else
    chat.resume s

/-- `chat.respond` (nodes.py 564-567): publish `chat_end`, set
`talking`, publish the TTS response. -/
def chat.respond (s : ChatState) : ChatState × List Action :=
  ({ s with talking := true }, [Action.publishChatEnd, Action.publishTTS])

/-- External events driving a started chat node: a message on the
listen-input topic (handled by `input_callback`, nodes.py 481-483) and a
`stop` speech event (handled by `speech_event_callback`, 569-573). -/
inductive ChatEvent where
  | userInput
  | speechStop
deriving DecidableEq, Repr

/-- One asynchronous callback delivery to a chat node. -/
def chat.step (s : ChatState) (wholeTimedOut : Bool) :
    ChatEvent → ChatState × List Action
  | ChatEvent.userInput => chat.respond s
  | ChatEvent.speechStop =>
      let r := chat.add_turn s wholeTimedOut
      ({ r.1 with talking := false }, r.2)

/-- A sequence of callback deliveries, accumulating the actions. -/
def chat.runEvents (s : ChatState) (wholeTimedOut : Bool) :
    List ChatEvent → ChatState × List Action
  | [] => (s, [])
  | e :: es =>
      let r := chat.step s wholeTimedOut e
      let rest := chat.runEvents r.1 wholeTimedOut es
      (rest.1, r.2 ++ rest.2)

/-- `chat_pause.resume` (nodes.py 439-441): zero the duration and
resume the runner. -/
def chat_pause.resume (n : NodeState) : NodeState × List Action :=
  ({ n with duration := 0 }, [Action.runnerResume])

/-- How many times an action list performs `a`. -/
def countAct (a : Action) (acts : List Action) : ℕ :=
  acts.countP (fun x => x = a)

/-!
## The pause node (nodes.py 320-414)

State modelled: `event_callback_ref` (a truthy registration token),
`timer` (a truthy `Timer` object; note that `timer.cancel()` does not
reset the attribute, so we record cancellation only as an action), the
inherited `finished` flag, and the relevant configuration fields.
`hasBreakFalse` is `'break' in self.data and not self.data['break']`.
-/

/-- State of a `pause` node instance as seen by its callbacks. -/
structure PauseState where
  callback_ref : Bool   -- self.event_callback_ref is truthy
  timer : Bool          -- self.timer is truthy (a Timer was armed)
  finished : Bool
  event_param : Bool    -- self.data['event_param'] is truthy
  on_event : Bool       -- self.data['on_event'] is truthy
  breakFalse : Bool     -- 'break' in data and not data['break']
deriving DecidableEq, Repr

/-- `pause.delete_callback_ref` (nodes.py 403-406): unregister the
channel listener if one is registered; idempotent. -/
def pause.delete_callback_ref (s : PauseState) : PauseState × List Action :=
  if s.callback_ref then
    ({ s with callback_ref := false }, [Action.unregister])
  else
    (s, [])

/-- `pause.resume` (nodes.py 370-374): resume the runner unless the
node already finished, then cancel the timer if one was armed.  This is
the callback armed on the timeout `Timer` (nodes.py 398). -/
def pause.resume (s : PauseState) : PauseState × List Action :=
  let a1 : List Action := if !s.finished then [Action.runnerResume] else []
  let a2 : List Action := if s.timer then [Action.timerCancel] else []
  (s, a1 ++ a2)

/-- `pause.start_performance` (nodes.py 333-341): cancel the timer if
armed, then either interrupt-and-queue or run the follow-up
performance. -/
def pause.start_performance (s : PauseState) : PauseState × List Action :=
  let a1 : List Action := if s.timer then [Action.timerCancel] else []
  if s.breakFalse then
    (s, a1 ++ [Action.runnerInterrupt, Action.appendQueue])
  else
    (s, a1 ++ [Action.runFull])

/-- `pause.event_callback` (nodes.py 357-368): unregister itself, drop
the event when a keyword filter is configured and the message does not
match, otherwise launch the follow-up performance or resume. -/
def pause.event_callback (s : PauseState) (msgMatched : Bool) :
    PauseState × List Action :=
  let r := pause.delete_callback_ref s
  let s := r.1
  if s.event_param ∧ ¬msgMatched then
    (s, r.2)
  else if s.on_event then
    let r2 := pause.start_performance s
    (r2.1, r.2 ++ r2.2)
  else
    let r2 := pause.resume s
    (r2.1, r.2 ++ r2.2)

/-- `pause.stop` (nodes.py 408-411): unregister the listener and cancel
the timer. -/
def pause.stop (s : PauseState) : PauseState × List Action :=
  let r := pause.delete_callback_ref s
  let a2 : List Action := if r.1.timer then [Action.timerCancel] else []
  (r.1, r.2 ++ a2)

/-!
## String primitives for `pause.event_matched` (nodes.py 343-355) and
## `Node.replace_variables_text` (nodes.py 53-58)

Python strings are modelled as `List Char`.  `event_matched` lowercases
the parameter, splits on commas, and for each entry asks whether the
stripped entry occurs as a substring of the lowercased message
(`str.index` succeeding); `str.index` with an empty needle succeeds on
every haystack. -/

/-- `needle` occurs at the start of the list (empty needle matches). -/
def startsWith : List Char → List Char → Bool
  | [], _ => true
  | _ :: _, [] => false
  | p :: ps, c :: cs => p = c && startsWith ps cs

/-- `needle` occurs somewhere in `hay` (Python `hay.index(needle)`
succeeding).  The empty needle occurs in every haystack. -/
def occursIn (needle : List Char) : List Char → Bool
  | [] => startsWith needle []
  | c :: rest => startsWith needle (c :: rest) || occursIn needle rest

/-- Python `str.split(',')`: split on every comma, keeping empty
pieces; the empty string yields `[[]]`. -/
def splitComma : List Char → List (List Char)
  | [] => [[]]
  | c :: rest =>
      if c = ',' then [] :: splitComma rest
      else
        match splitComma rest with
        | h :: t => (c :: h) :: t
        | [] => [[c]]

/-- Python `str.strip()`: remove leading and trailing whitespace. -/
def pyStrip (s : List Char) : List Char :=
  ((s.dropWhile Char.isWhitespace).reverse.dropWhile Char.isWhitespace).reverse

/-- Python `str.lower()` on our character lists. -/
def pyLower (s : List Char) : List Char :=
  s.map Char.toLower

/-- `pause.event_matched(param, msg)` (nodes.py 343-355): lowercase and
comma-split the parameter; the message (`None` becomes the empty
string) matches when any stripped entry occurs in its lowercase form. -/
def pause.event_matched (param : List Char) (msg : Option (List Char)) : Bool :=
  let params := splitComma (pyLower param)
  let m := pyLower (msg.getD [])
  params.any (fun p => occursIn (pyStrip p) m)

/-!
## `Node.replace_variables_text` (nodes.py 53-58)

`re.findall("{(\\w*?)}", text)` scans left to right; at each `{` the
lazy `\\w*?` can only stop at the closing `}`, and since `}` is not a
word character the match is exactly the maximal word-character run
after the `{` provided the next character is `}`.  On a failed match
the scan resumes one character later; after a successful match it
resumes after the `}`.  Each found name is then replaced everywhere in
the (already partially substituted) text by Python `str.replace`. -/

/-- Python 2 `\w` on a plain `str`: ASCII letters, digits, underscore. -/
def isWordChar (c : Char) : Bool :=
  c.isAlphanum || c = '_'

/-- Scanner for `re.findall("{(\\w*?)}", text)`.  The state is `none`
outside a candidate match and `some acc` after an opening brace, `acc`
holding the word characters read so far (reversed).  A `}` closes the
candidate and emits the group; a word character extends it; a fresh
`{` restarts the candidate there (the regex engine, after failing at
the earlier `{`, can only start a new match at the next `{`, because
the characters in between are word characters); anything else aborts
it.  This is exactly the left-to-right scan of the lazy pattern, since
`}` is not a word character. -/
def findVarsAux : Option (List Char) → List Char → List (List Char)
  | _, [] => []
  | none, c :: rest =>
      if c = '{' then findVarsAux (some []) rest
      else findVarsAux none rest
  | some acc, c :: rest =>
      if c = '}' then acc.reverse :: findVarsAux none rest
      else if isWordChar c then findVarsAux (some (c :: acc)) rest
      else if c = '{' then findVarsAux (some []) rest
      else findVarsAux none rest

/-- The successive groups found by `re.findall("{(\\w*?)}", text)`. -/
def findVars (text : List Char) : List (List Char) :=
  findVarsAux none text

/-- Strip `pat` from the front of the second list, returning the
remainder on success. -/
def stripFront : List Char → List Char → Option (List Char)
  | [], s => some s
  | _ :: _, [] => none
  | p :: ps, c :: cs => if p = c then stripFront ps cs else none

/-- Python `text.replace(pat, rep)`: replace every non-overlapping
occurrence of `pat`, scanning left to right.  The `fuel` argument is
only a structural-termination bound: every step consumes at least one
character, so `text.length` is always enough.  (Python treats an empty
`pat` as matching between all characters; the one caller below always
passes a pattern starting with a brace, so the empty-pattern case is
unreachable and we leave the text unchanged there.) -/
def replaceAllF (pat rep : List Char) : ℕ → List Char → List Char
  | _, [] => []
  | 0, text => text
  | fuel + 1, c :: rest =>
      match pat, stripFront pat (c :: rest) with
      | _ :: _, some rem => rep ++ replaceAllF pat rep fuel rem
      | _, _ => c :: replaceAllF pat rep fuel rest

/-- Python `text.replace(pat, rep)`. -/
def replaceAll (pat rep text : List Char) : List Char :=
  replaceAllF pat rep text.length text

/-- `Node.replace_variables_text` (nodes.py 53-58): for each name found
in the original text, in order, replace all occurrences of the braced
token by the runner variable's value (`None` or empty both give the
empty string, via `... or ''`). -/
def Node.replace_variables_text (getVar : List Char → Option (List Char))
    (text : List Char) : List Char :=
  (findVars text).foldl
    (fun t v => replaceAll ('{' :: (v ++ ['}'])) ((getVar v).getD []) t) text

/-!
## The attention region sampler (nodes.py 576-640)

Regions are rectangles with a category tag; coordinates are rationals.
The random draw of `random.random()` is passed in as a parameter
`draw ∈ [0,1)`.  Rational division by zero is total (and yields 0) in
Lean, where Python would raise on a zero-length segment; the claims
proved below never divide by zero. -/

/-- A region dictionary (`x`, `y`, `width`, `height`, `type`). -/
structure Region where
  x : ℚ
  y : ℚ
  width : ℚ
  height : ℚ
  rtype : String
deriving DecidableEq, Repr

/-- The axis argument of `get_random_axis_position`. -/
inductive Axis where
  | x | y
deriving DecidableEq, Repr

/-- `r[axis]`. -/
def Region.coord : Axis → Region → ℚ
  | Axis.x, r => r.x
  | Axis.y, r => r.y

/-- `r['width'] if axis == 'x' else r['height']`. -/
def Region.extent : Axis → Region → ℚ
  | Axis.x, r => r.width
  | Axis.y, r => r.height

/-- Stable insertion into a list sorted by `key` (equal keys keep the
inserted element after existing ones it is folded over, matching the
stability of Python `sorted`). -/
def insertByKey (key : Region → ℚ) (r : Region) : List Region → List Region
  | [] => [r]
  | x :: xs =>
      if key x < key r then x :: insertByKey key r xs
      else r :: x :: xs

/-- Python `sorted(regions, key=lambda r: r[axis])` (stable). -/
def sortByKey (key : Region → ℚ) (l : List Region) : List Region :=
  l.foldr (insertByKey key) []

/-- The first loop of `get_random_axis_position` (nodes.py 600-611):
walk the sorted regions tracking `prev_end` and the accumulated
`length`, producing the total length and one segment per region. -/
def buildLengths (ax : Axis) : List Region → ℚ → ℚ → ℚ × List (ℚ × ℚ)
  | [], _, length => (length, [])
  | r :: rs, prev_end, length =>
      let b := Region.coord ax r
      let e := b + Region.extent ax r
      if b < prev_end then
        let diff := prev_end - b
        let seg := (length - diff, length - diff + (e - b))
        let rest := buildLengths ax rs (max prev_end e) (length + max 0 (e - prev_end))
        (rest.1, seg :: rest.2)
      else
        let seg := (length, length + (e - b))
        let rest := buildLengths ax rs (max b e) (length + max 0 (e - b))
        (rest.1, seg :: rest.2)

/-- The second loop of `get_random_axis_position` (nodes.py 615-620):
collect every region whose segment contains `rval`; the first match
(while `position` is still falsy, i.e. 0) fixes the returned position
by linear interpolation inside that region. -/
def selectLoop (ax : Axis) (rval : ℚ) :
    List ((ℚ × ℚ) × Region) → ℚ → ℚ × List Region
  | [], position => (position, [])
  | (seg, r) :: rest, position =>
      if seg.1 ≤ rval ∧ rval ≤ seg.2 then
        let position' :=
          if position = 0 then
            Region.coord ax r +
              Region.extent ax r * ((rval - seg.1) / (seg.2 - seg.1))
          else position
        let res := selectLoop ax rval rest position'
        (res.1, r :: res.2)
      else
        selectLoop ax rval rest position

/-- `attention.get_random_axis_position(regions, axis)` (nodes.py
583-621) with the uniform draw in `[0,1)` made explicit:
`rval = draw * length`. -/
def attention.get_random_axis_position (regions : List Region) (ax : Axis)
    (draw : ℚ) : ℚ × List Region :=
  match regions with
  | [] => (0, [])
  | r0 :: rest =>
      let sorted := sortByKey (Region.coord ax) (r0 :: rest)
      match sorted with
      | [] => (0, [])
      | s0 :: _ =>
          let bl := buildLengths ax sorted (Region.coord ax s0) 0
          let rval := draw * bl.1
          selectLoop ax rval (bl.2.zip sorted) 0

/-- `attention.get_point_from_regions(all_regions, region_type)`
(nodes.py 623-640): keep regions of the requested type, shift `y` down
by the height, sample the x axis, then the y axis within the matches,
and invert the world y coordinate. -/
def attention.get_point_from_regions (all_regions : List Region)
    (region_type : String) (draw1 draw2 : ℚ) : ℚ × ℚ × ℚ :=
  let regions := (all_regions.filter (fun r => r.rtype = region_type)).map
    (fun r => { r with y := r.y - r.height })
  match regions with
  | [] => (1, 0, 0)
  | _ :: _ =>
      let r1 := attention.get_random_axis_position regions Axis.x draw1
      let r2 := attention.get_random_axis_position r1.2 Axis.y draw2
      (1, -r1.1, r2.1)

/-! ## Helper lemmas -/

lemma countStart_append (a b : List Hook) :
    countStart (a ++ b) = countStart a + countStart b := by
  simp [countStart, List.countP_append]

lemma run_rank_mono (s : NodeState) (p : Bool) (t : ℚ) :
    s.rank ≤ (Node.run s p t).2.1.rank ∧
      (Node.run s p t).2.1.rank ≤ s.rank + 1 := by
  rcases s with ⟨st, d, sb, fb⟩
  cases sb <;> cases fb <;>
    simp only [Node.run, NodeState.rank] <;> split_ifs <;> simp_all

lemma run_countStart_of_started (s : NodeState) (p : Bool) (t : ℚ)
    (h : s.started = true) :
    (Node.run s p t).2.1.started = true ∧ countStart (Node.run s p t).2.2 = 0 := by
  simp only [Node.run, h]
  split_ifs <;> simp [countStart, h]

lemma run_countStart_of_not_started (s : NodeState) (p : Bool) (t : ℚ)
    (h : s.started = false) :
    countStart (Node.run s p t).2.2 = 0 ∨
      (countStart (Node.run s p t).2.2 = 1 ∧ (Node.run s p t).2.1.started = true) := by
  simp only [Node.run, h]
  split_ifs <;> simp [countStart]

lemma runSeq_countStart (steps : List (Bool × ℚ)) (s : NodeState) :
    countStart (Node.runSeq s steps).2 ≤ cond s.started 0 1 := by
  induction steps generalizing s with
  | nil =>
      cases s.started <;> simp [Node.runSeq, countStart]
  | cons pt rest ih =>
      obtain ⟨p, t⟩ := pt
      simp only [Node.runSeq, countStart_append]
      cases hs : s.started with
      | true =>
          obtain ⟨h1, h2⟩ := run_countStart_of_started s p t hs
          have h3 := ih (Node.run s p t).2.1
          rw [h1] at h3
          simp only [Bool.cond_true] at h3 ⊢
          omega
      | false =>
          have h3 := ih (Node.run s p t).2.1
          simp only [Bool.cond_false]
          rcases run_countStart_of_not_started s p t hs with h0 | ⟨h1, h2⟩
          · have hb : countStart (Node.runSeq (Node.run s p t).2.1 rest).2 ≤ 1 := by
              cases hrs : (Node.run s p t).2.1.started <;> rw [hrs] at h3 <;>
                simp at h3 <;> omega
            omega
          · rw [h2] at h3
            simp only [Bool.cond_true] at h3
            omega

/-! ## Claims -/

/-- C1: for every node and every sequence of `run(t)` calls with any
time values and runner-paused flags, the lifecycle state only moves
forward through Pending → Active → Finished (the rank never
decreases), and the `start` hook is invoked at most once per node
instance (never again once `started` is set). -/
theorem C1_state_forward_start_once :
    (∀ (s : NodeState) (p : Bool) (t : ℚ),
        s.rank ≤ (Node.run s p t).2.1.rank ∧
          (Node.run s p t).2.1.rank ≤ s.rank + 1) ∧
    (∀ (s : NodeState) (steps : List (Bool × ℚ)),
        countStart (Node.runSeq s steps).2 ≤ cond s.started 0 1) :=
  ⟨run_rank_mono, fun s steps => runSeq_countStart steps s⟩

/-- C2: a node constructed at an initial timeline position `p` strictly
past its `start_time` is marked finished immediately; if `p` is
additionally before `end_time()` it is also marked started; and the
first subsequent `run` at the same position invokes no hook (in
particular not `start`). -/
theorem C2_construction_backfill (st d p : ℚ) (rp : Bool) (h : st < p) :
    (Node.createNode st d p).finished = true ∧
    (p < (Node.createNode st d p).end_time →
      (Node.createNode st d p).started = true) ∧
    (Node.run (Node.createNode st d p) rp p).2.2 = [] := by
  have hst : (NodeState.init st d).start_time = st := rfl
  simp only [Node.createNode, hst, if_pos h]
  split_ifs with h2 <;>
    simp_all [Node.run, NodeState.end_time, NodeState.init]

/-- Witness for C2 at `start_time = 0`, `duration = 1`, `p = 1/2`. -/
theorem C2_construction_backfill_witness :
    (Node.createNode 0 1 (1/2)).finished = true ∧
    ((1 : ℚ)/2 < (Node.createNode 0 1 (1/2)).end_time →
      (Node.createNode 0 1 (1/2)).started = true) ∧
    (Node.run (Node.createNode 0 1 (1/2)) false (1/2)).2.2 = [] :=
  C2_construction_backfill 0 1 (1/2) false (by norm_num)

/-- A finished node that never started (back-filled past its whole
span). -/
def finNeverStarted : NodeState :=
  { start_time := 0, duration := 1, started := false, finished := true }

/-- A finished node that had started. -/
def finStarted : NodeState :=
  { start_time := 0, duration := 1, started := true, finished := true }

/-- C3 counterexample: `finNeverStarted` is Finished, never started,
and `1/2 < end_time()`, so the claim predicts `run(1/2)` returns active
(true); the code returns false.  (Conversely, on a started Finished
node before `end_time()` the claim predicts inactive but the code
returns true.) -/
theorem C3_finished_tick_cex :
    finNeverStarted.finished = true ∧ finNeverStarted.started = false ∧
    (1 : ℚ)/2 < finNeverStarted.end_time ∧
    (Node.run finNeverStarted false (1/2)).1 = false ∧
    (Node.run finStarted false (1/2)).1 = true := by
  refine ⟨rfl, rfl, ?_, ?_, ?_⟩
  · norm_num [finNeverStarted, NodeState.end_time]
  · simp [Node.run, finNeverStarted]
  · norm_num [Node.run, finStarted, NodeState.end_time]

/-- C3 (amended): for every node in the Finished state, `run(t)`
returns inactive (false) unless the node **had** started, in which case
it returns active (true) while `t < end_time()`. -/
theorem C3_finished_tick (s : NodeState) (p : Bool) (t : ℚ)
    (h : s.finished = true) :
    (Node.run s p t).1 = (s.started && decide (t < s.end_time)) := by
  simp only [Node.run, h]
  cases hs : s.started <;> simp

/-- Witness for the amended C3 on a started Finished node at `t = 1/2`. -/
theorem C3_finished_tick_witness :
    (Node.run finStarted false (1/2)).1 =
      (finStarted.started && decide ((1 : ℚ)/2 < finStarted.end_time)) :=
  C3_finished_tick finStarted false (1/2) rfl

/-- A pending node used to exercise the start branch. -/
def pendingNode : NodeState :=
  { start_time := 0, duration := 1, started := false, finished := false }

/-- An active node used to exercise the stop branch. -/
def activeNode : NodeState :=
  { start_time := 0, duration := 1, started := true, finished := false }

/-- Hooks that always raise. -/
def raisesAll : Hook → Bool := fun _ => true

/-- C4 counterexample: on an Active node at `t = 2 ≥ end_time()` whose
`stop` hook raises, `run` propagates the exception and the node is left
with `finished = false` — the claim says the exception is caught and
the node is still marked Finished. -/
theorem C4_hook_exceptions_cex :
    Node.runE activeNode false 2 raisesAll = Except.error activeNode ∧
    activeNode.finished = false := by
  constructor
  · norm_num [Node.runE, activeNode, NodeState.end_time, raisesAll]
  · rfl

/-- C4 (amended): only an exception inside `start` is caught: `run`
still returns true and marks the node started.  Exceptions inside
`stop`, `paused` or `cont` propagate out of `run`, leave the state
unchanged, and in particular a node whose `stop` hook raises is not
marked Finished. -/
theorem C4_hook_exceptions (s : NodeState) (p : Bool) (t : ℚ)
    (raises : Hook → Bool) :
    (s.finished = false → s.started = false → s.start_time < t →
      Node.runE s p t raises = Except.ok (true, { s with started := true })) ∧
    (s.finished = false → s.started = true → s.end_time ≤ t →
      raises Hook.stop = true →
      Node.runE s p t raises = Except.error s ∧ s.finished = false) ∧
    (s.finished = false → s.started = true → ¬s.end_time ≤ t → p = true →
      raises Hook.paused = true →
      Node.runE s p t raises = Except.error s) ∧
    (s.finished = false → s.started = true → ¬s.end_time ≤ t → p = false →
      raises Hook.cont = true →
      Node.runE s p t raises = Except.error s) := by
  refine ⟨?_, ?_, ?_, ?_⟩ <;> intros <;>
    simp_all [Node.runE]

/-- Witness for the amended C4: a raising `start` is swallowed on
`pendingNode` at `t = 1`; a raising `stop` escapes on `activeNode` at
`t = 2`. -/
theorem C4_hook_exceptions_witness :
    Node.runE pendingNode false 1 raisesAll =
      Except.ok (true, { pendingNode with started := true }) ∧
    Node.runE activeNode false 2 raisesAll = Except.error activeNode :=
  ⟨(C4_hook_exceptions pendingNode false 1 raisesAll).1 rfl rfl
      (by norm_num [pendingNode]),
   ((C4_hook_exceptions activeNode false 2 raisesAll).2.1 rfl rfl
      (by norm_num [activeNode, NodeState.end_time]) rfl).1⟩

/-- A chat node configured with `dialog_turns = 2` right after `start`:
no turns yet, input subscriber registered, `timeout_mode = 'each'`. -/
def chatTwoTurns : ChatState :=
  { node := NodeState.init 0 10, turns := 0, dialog_turns := 2,
    talking := false, subscribed := true, tmWhole := false }

/-- Two user input events, each followed by a `stop` speech event. -/
def twoTurnEvents : List ChatEvent :=
  [ChatEvent.userInput, ChatEvent.speechStop,
   ChatEvent.userInput, ChatEvent.speechStop]

/-- C5 counterexample: on `chatTwoTurns` the event sequence produces
three `chat_end` publishes, not exactly one: `respond` publishes
`chat_end` before each of the two spoken responses (nodes.py 565) and
`resume` publishes one more when the dialogue ends (nodes.py 558). -/
theorem C5_chat_end_count_cex :
    ¬ countAct Action.publishChatEnd
        (chat.runEvents chatTwoTurns false twoTurnEvents).2 = 1 := by
  decide

/-- C5 (amended): for a chat node with `dialog_turns = 2`, two user
input events each followed by a `stop` speech event result in exactly
one `Runner.resume()` call and exactly three `chat_end` emissions (one
from `respond` per response, one from `resume` at dialogue end). -/
theorem C5_chat_two_turns :
    countAct Action.runnerResume
        (chat.runEvents chatTwoTurns false twoTurnEvents).2 = 1 ∧
    countAct Action.publishChatEnd
        (chat.runEvents chatTwoTurns false twoTurnEvents).2 = 3 := by
  decide

/-- A pause node with both a channel registration and a timeout timer
armed, no follow-up performance and no keyword filter. -/
def pauseArmed : PauseState :=
  { callback_ref := true, timer := true, finished := false,
    event_param := false, on_event := false, breakFalse := false }

/-- C6 counterexample: the timer's callback `resume` on `pauseArmed`
resumes the runner and cancels the timer but does not unregister the
channel listener — `event_callback_ref` stays set and no unregister
action is emitted — whereas the claim says the winning timer callback
unregisters the channel listener. -/
theorem C6_tie_break_cex :
    (pause.resume pauseArmed).2 = [Action.runnerResume, Action.timerCancel] ∧
    (pause.resume pauseArmed).1.callback_ref = true := by
  decide

/-- C6 (amended): with both a channel registration and a timer armed,
the channel callback `event_callback` unregisters itself and cancels
the timer inside the callback; the timer's callback `resume` cancels
the timer and resumes the runner but leaves the channel registration in
place (it is unregistered later by `event_callback` or `stop`, not
inside the timer callback). -/
theorem C6_tie_break (s : PauseState) (m : Bool)
    (ht : s.timer = true) (hoe : s.on_event = false) (hf : s.finished = false)
    (hm : s.event_param = false ∨ m = true) :
    (countAct Action.timerCancel (pause.event_callback s m).2 = 1 ∧
     (pause.event_callback s m).1.callback_ref = false) ∧
    (countAct Action.timerCancel (pause.resume s).2 = 1 ∧
     countAct Action.unregister (pause.resume s).2 = 0 ∧
     (pause.resume s).1.callback_ref = s.callback_ref) := by
  rcases s with ⟨cb, tm, fin, ep, oe, bf⟩
  dsimp only at ht hoe hf hm ⊢
  subst ht hoe hf
  rcases hm with h | h
  · subst h; cases cb <;> cases bf <;> cases m <;> decide
  · subst h; cases cb <;> cases bf <;> cases ep <;> decide

/-- Witness for the amended C6 on `pauseArmed` with a matching
message. -/
theorem C6_tie_break_witness :
    (countAct Action.timerCancel (pause.event_callback pauseArmed true).2 = 1 ∧
     (pause.event_callback pauseArmed true).1.callback_ref = false) ∧
    (countAct Action.timerCancel (pause.resume pauseArmed).2 = 1 ∧
     countAct Action.unregister (pause.resume pauseArmed).2 = 0 ∧
     (pause.resume pauseArmed).1.callback_ref = pauseArmed.callback_ref) :=
  C6_tie_break pauseArmed true rfl rfl rfl (Or.inl rfl)

/-- The single region of the C7 scenario. -/
def regionA : Region :=
  { x := 0, y := 0, width := 10, height := 10, rtype := "A" }

/-- C7: sampling a single region `{x:0, y:0, width:10, height:10}` with
any draw in `[0,1)` returns the draw mapped linearly into the region's
coordinates — a position in `[0,10)` — and the matched regions are
exactly the one-element list containing that region. -/
theorem C7_single_region_sampling (ax : Axis) (draw : ℚ)
    (h0 : 0 ≤ draw) (h1 : draw < 1) :
    attention.get_random_axis_position [regionA] ax draw
      = (10 * draw, [regionA]) ∧
    0 ≤ 10 * draw ∧ 10 * draw < 10 := by
  have hc : Region.coord ax regionA = 0 := by cases ax <;> rfl
  have he : Region.extent ax regionA = 10 := by cases ax <;> rfl
  refine ⟨?_, by positivity, by nlinarith⟩
  simp only [attention.get_random_axis_position, sortByKey, List.foldr, insertByKey,
    buildLengths, selectLoop, hc, he, List.zip_cons_cons, List.zip_nil_left,
    List.zip_nil_right]
  norm_num
  exact ⟨h0, le_of_lt h1⟩

/-- Witness for C7 at `draw = 1/2` on the x axis. -/
theorem C7_single_region_sampling_witness :
    attention.get_random_axis_position [regionA] Axis.x (1/2)
      = (10 * (1/2), [regionA]) ∧
    0 ≤ 10 * ((1 : ℚ)/2) ∧ 10 * ((1 : ℚ)/2) < 10 :=
  C7_single_region_sampling Axis.x (1/2) (by norm_num) (by norm_num)

/-- Variable store mapping `name` to `bot`. -/
def gName : List Char → Option (List Char) := fun v =>
  if v = "name".toList then some "bot".toList else none

/-- Variable store with no variables resolved. -/
def gNone : List Char → Option (List Char) := fun _ => none

/-- Variable store mapping `a` to the literal text `{b}` and `b` to
`x`. -/
def gCross : List Char → Option (List Char) := fun v =>
  if v = "a".toList then some "{b}".toList
  else if v = "b".toList then some "x".toList
  else none

/-- C8 counterexample: substituting in `{a} {b}` with `a ↦ {b}` and
`b ↦ x` yields `x x`: the `{b}` inserted as the value of `{a}` is
re-substituted when the later token `{b}` is processed, whereas the
claimed single-pass substitution with no re-substitution of inserted
values would yield `{b} x`. -/
theorem C8_substitution_cex :
    Node.replace_variables_text gCross "{a} {b}".toList = "x x".toList ∧
    "x x".toList ≠ "{b} x".toList := by
  decide

/-- C8 (amended): every placeholder `{name}` found in the original text
is replaced by the per-node variable value, an unresolved variable
resolving to the empty string (`hello {name}` with `name ↦ bot` yields
`hello bot`, unresolved yields `hello `); the tokens of the original
text are processed in order and an inserted value may itself be
re-substituted when a later token occurs inside it; a text with no
well-formed token — in particular a malformed single `{` with no
matching `}` — is left unchanged. -/
theorem C8_substitution :
    (∀ (g : List Char → Option (List Char)) (t : List Char),
        findVars t = [] → Node.replace_variables_text g t = t) ∧
    Node.replace_variables_text gName "hello {name}".toList
      = "hello bot".toList ∧
    Node.replace_variables_text gNone "hello {name}".toList
      = "hello ".toList ∧
    findVars "hello \x7bname".toList = [] ∧
    Node.replace_variables_text gName "hello \x7bname".toList
      = "hello \x7bname".toList := by
  refine ⟨fun g t h => ?_, by decide, by decide, by decide, by decide⟩
  simp [Node.replace_variables_text, h]

/-- Witness for the amended C8's universally quantified conjunct on a
text with no tokens. -/
theorem C8_substitution_witness :
    Node.replace_variables_text gNone "abc".toList = "abc".toList :=
  C8_substitution.1 gNone ("abc".toList) (by decide)

/-- A chat node mid-dialogue: started, not finished. -/
def chatStarted : ChatState :=
  { node := { start_time := 0, duration := 10, started := true, finished := false },
    turns := 1, dialog_turns := 2, talking := false, subscribed := true,
    tmWhole := false }

/-- C9: construction floors the duration at 0.1, but `resume()` on a
chat or chat_pause node sets the duration to 0, so `end_time()` becomes
equal to `start_time` (the floor is not preserved), and the next
`run(t)` with `t ≥ end_time()` on the started node invokes `stop` and
finishes it. -/
theorem C9_resume_zeroes_duration :
    (∀ st d : ℚ, 1/10 ≤ (NodeState.init st d).duration) ∧
    (∀ s : ChatState, (chat.resume s).1.node.duration = 0 ∧
        (chat.resume s).1.node.end_time = s.node.start_time) ∧
    (∀ n : NodeState, (chat_pause.resume n).1.duration = 0 ∧
        (chat_pause.resume n).1.end_time = n.start_time) ∧
    (∀ (s : ChatState) (rp : Bool) (t : ℚ),
        s.node.started = true → s.node.finished = false →
        s.node.start_time ≤ t →
        (Node.run (chat.resume s).1.node rp t).2.1.finished = true ∧
        (Node.run (chat.resume s).1.node rp t).1 = false ∧
        (Node.run (chat.resume s).1.node rp t).2.2 = [Hook.stop]) := by
  refine ⟨?_, ?_, ?_, ?_⟩
  · intro st d
    simp only [NodeState.init]
    exact le_max_left ((1 : ℚ)/10) d
  · intro s
    cases hsub : s.subscribed <;>
      simp [chat.resume, hsub, NodeState.end_time]
  · intro n
    simp [chat_pause.resume, NodeState.end_time]
  · intro s rp t h1 h2 h3
    cases hsub : s.subscribed <;>
      simp [chat.resume, hsub, Node.run, NodeState.end_time, h1, h2, h3]

/-- Witness for C9 on `chatStarted` at `t = 5`. -/
theorem C9_resume_zeroes_duration_witness :
    (1 : ℚ)/10 ≤ (NodeState.init 0 1).duration ∧
    ((Node.run (chat.resume chatStarted).1.node false 5).2.1.finished = true ∧
     (Node.run (chat.resume chatStarted).1.node false 5).1 = false ∧
     (Node.run (chat.resume chatStarted).1.node false 5).2.2 = [Hook.stop]) :=
  ⟨C9_resume_zeroes_duration.1 0 1,
   C9_resume_zeroes_duration.2.2.2 chatStarted false 5 rfl rfl
     (by norm_num [chatStarted])⟩

lemma occursIn_nil (m : List Char) : occursIn [] m = true := by
  cases m <;> simp [occursIn, startsWith]

/-- C10: whenever the comma-separated keyword list contains an entry
that strips to the empty string, `pause.event_matched` returns true for
every message — including `None` and the empty string — because the
empty keyword occurs in every message. -/
theorem C10_empty_keyword_matches (param : List Char)
    (msg : Option (List Char))
    (h : ∃ p ∈ splitComma (pyLower param), pyStrip p = []) :
    pause.event_matched param msg = true := by
  obtain ⟨p, hp, hstrip⟩ := h
  simp only [pause.event_matched, List.any_eq_true]
  exact ⟨p, hp, by rw [hstrip]; exact occursIn_nil _⟩

/-- Witness for C10: keyword list `" , stop"` (whitespace-only first
entry) matches the absent message `None`. -/
theorem C10_empty_keyword_matches_witness :
    pause.event_matched " , stop".toList none = true :=
  C10_empty_keyword_matches (" , stop".toList) none (by decide)

end Performances
